import Mathlib

/-!
Verification of the data-model definitions in `polls/models.py`.

Python `datetime.datetime` values are embedded as integers (microseconds on
the timeline); Python `datetime.date` values as year/month/day triples with
the lexicographic comparison Python uses for dates; Django rows as Lean
structures; Django tables as lists of rows.  Framework behaviour that lives
in Django rather than in the repository (cascade deletion, the implicit
many-to-many relation of a `through` model, `save` semantics on a mutated
primary key, default ordering on retrieval, `get_FOO_display`) is modelled
from the spec, as marked on each such definition.
-/

/-- `datetime.timedelta(days=1)` in microseconds, the resolution of Python
datetimes. -/
def timedeltaOneDay : Int := 86400000000

/-- `Question.was_published_recently` from `polls/models.py`:
`return self.pub_date >= timezone.now() - datetime.timedelta(days=1)`.
The evaluation time `now` (the value of `timezone.now()`) is a parameter. -/
def wasPublishedRecently (pub_date now : Int) : Bool :=
  decide (pub_date ≥ now - timedeltaOneDay)

/-- A Python `datetime.date`: a year/month/day triple. -/
structure PyDate where
  year : Nat
  month : Nat
  day : Nat
deriving DecidableEq, Repr

/-- Python `date` comparison `a < b`: lexicographic on (year, month, day). -/
def PyDate.ltb (a b : PyDate) : Bool :=
  if a.year ≠ b.year then decide (a.year < b.year)
  else if a.month ≠ b.month then decide (a.month < b.month)
  else decide (a.day < b.day)

/-- Python `date` comparison `a <= b`: lexicographic on (year, month, day). -/
def PyDate.leb (a b : PyDate) : Bool :=
  if a.year ≠ b.year then decide (a.year < b.year)
  else if a.month ≠ b.month then decide (a.month < b.month)
  else decide (a.day ≤ b.day)

theorem PyDate.leb_eq_not_ltb (a b : PyDate) : a.leb b = !(b.ltb a) := by
  rcases a with ⟨y1, m1, d1⟩
  rcases b with ⟨y2, m2, d2⟩
  rw [Bool.eq_iff_iff]
  simp only [leb, ltb, Bool.not_eq_true']
  split_ifs <;> simp_all <;> omega

/-- `Person.SHIRT_SIZES` from `polls/models.py`: pairs of stored value and
human-readable label. -/
def SHIRT_SIZES : List (String × String) :=
  [("S", "Small"), ("M", "Medium"), ("L", "Large")]

/-- A row of the `Person` model.  `birth_date` is declared `null=True`, so it
is an `Option`. -/
structure Person where
  name : String
  shirt_size : String
  first_name : String
  last_name : String
  birth_date : Option PyDate
deriving DecidableEq, Repr

/-- `Person.baby_boomer_status` from `polls/models.py`: an if/elif chain on
`self.birth_date < datetime.date(1945, 8, 1)` and
`self.birth_date < datetime.date(1965, 1, 1)`.  When `birth_date` is null the
first comparison is `None < date`, which raises `TypeError` in Python; that
failure is the `Except.error` branch. -/
def Person.baby_boomer_status (p : Person) : Except String String :=
  match p.birth_date with
  | none => Except.error "TypeError"
  | some bd =>
    if bd.ltb ⟨1945, 8, 1⟩ then Except.ok "Pre-boomer"
    else if bd.ltb ⟨1965, 1, 1⟩ then Except.ok "Baby boomer"
    else Except.ok "Post-boomer"

/-- `Person.full_name` from `polls/models.py`:
`return '%s %s' % (self.first_name, self.last_name)`. -/
def Person.full_name (p : Person) : String :=
  p.first_name ++ " " ++ p.last_name

/-- Reading the `full_name` property: the property body only reads two fields
and formats a string, so the access returns the formatted string and leaves
the object as it was. -/
def Person.full_name_read (p : Person) : String × Person :=
  (p.full_name, p)

/-- Modelled from the spec: Django's `get_shirt_size_display` accessor
returns the human-readable label paired with the stored value in the field's
`choices`, and the stored value itself when it is not among the choices. -/
def Person.get_shirt_size_display (p : Person) : String :=
  match SHIRT_SIZES.find? (fun c => c.1 == p.shirt_size) with
  | some c => c.2
  | none => p.shirt_size

/-- The `on_delete` policies Django offers for a foreign key. -/
inductive OnDelete
  | CASCADE
  | PROTECT
  | SET_NULL
  | DO_NOTHING
deriving DecidableEq, Repr

/-- A `models.ForeignKey` declaration: declaring model, field name, target
model, and `on_delete` policy. -/
structure ForeignKeyDecl where
  model : String
  field : String
  target : String
  on_delete : OnDelete
deriving DecidableEq, Repr

/-- Every `models.ForeignKey` declared in `polls/models.py`, in source
order. -/
def schemaForeignKeys : List ForeignKeyDecl :=
  [⟨"Choice", "question", "Question", OnDelete.CASCADE⟩,
   ⟨"Membership", "person", "Person", OnDelete.CASCADE⟩,
   ⟨"Membership", "group", "Group", OnDelete.CASCADE⟩,
   ⟨"Album", "artist", "Musician", OnDelete.CASCADE⟩,
   ⟨"Car", "manufacturer", "Manufacturer", OnDelete.CASCADE⟩,
   ⟨"Entry", "blog", "Blog", OnDelete.CASCADE⟩,
   ⟨"Book", "publisher", "Publisher", OnDelete.CASCADE⟩]

/-- A row of the `Question` model. -/
structure QuestionRow where
  id : Nat
  question_text : String
  pub_date : Int
deriving DecidableEq, Repr

/-- A row of the `Choice` model; `question` is the foreign key to
`Question.id`. -/
structure ChoiceRow where
  id : Nat
  question : Nat
  choice_text : String
  votes : Int
deriving DecidableEq, Repr

/-- The database state for the polls app: the `Question` and `Choice`
tables. -/
structure PollsDB where
  questions : List QuestionRow
  choices : List ChoiceRow
deriving DecidableEq, Repr

/-- Modelled from the spec: cascade delete, the automatic deletion of
dependent rows when their referenced row is deleted, applied to deleting a
`Question`: the question row goes away and, because `Choice.question` is
declared `on_delete=models.CASCADE`, so does every `Choice` row referencing
it. -/
def deleteQuestion (db : PollsDB) (qid : Nat) : PollsDB :=
  ⟨db.questions.filter (fun q => q.id != qid),
   db.choices.filter (fun c => c.question != qid)⟩

/-- Referential integrity of the polls tables: every `Choice` row references
an existing `Question` row. -/
def PollsDB.refIntact (db : PollsDB) : Prop :=
  ∀ c ∈ db.choices, ∃ q ∈ db.questions, q.id = c.question

/-- A row of the `Membership` model: foreign keys to `Person` and `Group`
(both `on_delete=models.CASCADE`) plus the extra attributes `date_joined`
and `invite_reason`. -/
structure MembershipRow where
  person : Nat
  group : Nat
  date_joined : PyDate
  invite_reason : String
deriving DecidableEq, Repr

/-- The `Membership` table. -/
abbrev MembershipTable := List MembershipRow

/-- Modelled from the spec: with a `through` model the many-to-many relation
is stored as the intermediate table, so `p` is a member of `g` exactly when
some `Membership` row links them. -/
def isMember (tbl : MembershipTable) (p g : Nat) : Bool :=
  tbl.any (fun m => m.person == p && m.group == g)

/-- `Membership(...).save()` / `Membership.objects.create(...)` from the
docstring: inserts the row. -/
def saveMembership (tbl : MembershipTable) (m : MembershipRow) : MembershipTable :=
  tbl ++ [m]

/-- Modelled from the spec: `group.members.add(p, through_defaults=...)`
creates a `Membership` row carrying the defaults, unless one already links
the pair. -/
def addMember (tbl : MembershipTable) (p g : Nat) (dj : PyDate)
    (reason : String) : MembershipTable :=
  if isMember tbl p g then tbl else tbl ++ [⟨p, g, dj, reason⟩]

/-- Modelled from the spec: `group.members.clear()` removes every member of
the group by deleting the intermediate `Membership` rows (per the docstring,
"this deletes the intermediate model instances"). -/
def clearMembers (tbl : MembershipTable) (g : Nat) : MembershipTable :=
  tbl.filter (fun m => m.group != g)

/-- Modelled from the spec: `group.members.set(ps, through_defaults=...)`
makes `ps` the members of the group: rows of other pairs for this group are
deleted and missing pairs are inserted with the defaults. -/
def setMembers (tbl : MembershipTable) (g : Nat) (ps : List Nat) (dj : PyDate)
    (reason : String) : MembershipTable :=
  ps.foldl (fun t p => addMember t p g dj reason)
    (tbl.filter (fun m => m.group != g || ps.contains m.person))

/-- A row of the `Ox` model. -/
structure Ox where
  horn_length : Int
deriving DecidableEq, Repr

/-- The `Meta.ordering` declaration of `Ox` in `polls/models.py`. -/
def oxMetaOrdering : List String := ["horn_length"]

/-- The comparison `Meta.ordering = ["horn_length"]` asks for: ascending
`horn_length`. -/
def oxLe (a b : Ox) : Prop := a.horn_length ≤ b.horn_length

instance : DecidableRel oxLe := fun a b =>
  inferInstanceAs (Decidable (a.horn_length ≤ b.horn_length))

instance : IsTotal Ox oxLe := ⟨fun a b => Int.le_total a.horn_length b.horn_length⟩

instance : IsTrans Ox oxLe := ⟨fun _ _ _ => Int.le_trans⟩

/-- Modelled from the spec: retrieving the stored `Ox` rows without an
explicit ordering applies the model's default `Meta.ordering`, returning
them sorted by `horn_length`. -/
def oxObjectsAll (rows : List Ox) : List Ox :=
  rows.insertionSort oxLe

/-- The `Fruit` table: `name` is the primary key (`primary_key=True`) and the
only column, so the table is the list of stored names. -/
abbrev FruitTable := List String

/-- Modelled from the spec: `fruit.save()` looks the object up by its current
primary-key value; when no row with that key exists a new row is inserted
alongside the old ones (per the docstring, changing the primary key of an
existing object and saving creates a new object), and when one exists that
row is updated in place, which for a model whose only field is the key
changes nothing. -/
def fruitSave (tbl : FruitTable) (nm : String) : FruitTable :=
  if nm ∈ tbl then tbl else tbl ++ [nm]

theorem PyDate.ltb_trans {a b c : PyDate} (h1 : a.ltb b = true)
    (h2 : b.ltb c = true) : a.ltb c = true := by
  rcases a with ⟨y1, m1, d1⟩
  rcases b with ⟨y2, m2, d2⟩
  rcases c with ⟨y3, m3, d3⟩
  simp only [ltb] at *
  split_ifs at * <;> simp_all <;> omega

/-- Concrete rows used by the witnesses, taken from the docstrings. -/
def ringo : Person := ⟨"Ringo Starr", "L", "Richard", "Starkey", some ⟨1940, 7, 7⟩⟩

def fred : Person := ⟨"Fred Flintstone", "L", "Fred", "Flintstone", none⟩

def lennon : Person := ⟨"John Lennon", "M", "John", "Lennon", none⟩

def dbEx : PollsDB :=
  ⟨[⟨1, "What is new?", 0⟩], [⟨1, 1, "Not much", 0⟩, ⟨2, 1, "The sky", 0⟩]⟩

def beatlesMemberships : MembershipTable :=
  [⟨1, 1, ⟨1962, 8, 16⟩, "Needed a new drummer."⟩,
   ⟨2, 1, ⟨1960, 8, 1⟩, "Wanted to form a band."⟩]

/-- C1: `was_published_recently` performs a single date comparison and
returns true exactly when `pub_date` is at or after the evaluation time
minus one day, i.e. the publish timestamp lies in the one-day window ending
at the evaluation time. -/
theorem C1_was_published_recently_window (pub_date now : Int) :
    wasPublishedRecently pub_date now = true ↔ now - timedeltaOneDay ≤ pub_date := by
  simp [wasPublishedRecently, ge_iff_le]

/-- C2: for a person whose birth date is non-null, `baby_boomer_status`
returns exactly one of three strings, and the result is Pre-boomer exactly
below 1945-08-01, Baby boomer exactly on the range from 1945-08-01 up to but
excluding 1965-01-01, and Post-boomer exactly from 1965-01-01 on. -/
theorem C2_baby_boomer_status_cases (p : Person) (bd : PyDate)
    (hbd : p.birth_date = some bd) :
    (p.baby_boomer_status = Except.ok "Pre-boomer" ∨
     p.baby_boomer_status = Except.ok "Baby boomer" ∨
     p.baby_boomer_status = Except.ok "Post-boomer") ∧
    (p.baby_boomer_status = Except.ok "Pre-boomer" ↔
      bd.ltb ⟨1945, 8, 1⟩ = true) ∧
    (p.baby_boomer_status = Except.ok "Baby boomer" ↔
      (PyDate.leb ⟨1945, 8, 1⟩ bd = true ∧ bd.ltb ⟨1965, 1, 1⟩ = true)) ∧
    (p.baby_boomer_status = Except.ok "Post-boomer" ↔
      PyDate.leb ⟨1965, 1, 1⟩ bd = true) := by
  have hle45 := PyDate.leb_eq_not_ltb ⟨1945, 8, 1⟩ bd
  have hle65 := PyDate.leb_eq_not_ltb ⟨1965, 1, 1⟩ bd
  simp only [Person.baby_boomer_status, hbd]
  by_cases h1 : bd.ltb ⟨1945, 8, 1⟩ = true
  · have h2 : bd.ltb ⟨1965, 1, 1⟩ = true := PyDate.ltb_trans h1 (by decide)
    simp [h1, h2, hle45, hle65]
  · by_cases h2 : bd.ltb ⟨1965, 1, 1⟩ = true
    · simp [h1, h2, hle45, hle65]
    · simp [h1, h2, hle45, hle65]

theorem C2_witness :
    ringo.baby_boomer_status = Except.ok "Pre-boomer" ∨
    ringo.baby_boomer_status = Except.ok "Baby boomer" ∨
    ringo.baby_boomer_status = Except.ok "Post-boomer" :=
  (C2_baby_boomer_status_cases ringo ⟨1940, 7, 7⟩ rfl).1

/-- C3: reading the `full_name` property yields the first name, a space and
the last name, and modifies no field of the person. -/
theorem C3_full_name_pure (p : Person) :
    (p.full_name_read).1 = p.first_name ++ " " ++ p.last_name ∧
    (p.full_name_read).2 = p :=
  ⟨rfl, rfl⟩

/-- C4: every foreign key in the schema is declared with cascade deletion,
and deleting a question deletes the question row and every choice row
referencing it, preserving referential integrity: after the delete no row
references a non-existent row. -/
theorem C4_cascade_delete :
    (∀ fk ∈ schemaForeignKeys, fk.on_delete = OnDelete.CASCADE) ∧
    (∀ (db : PollsDB) (qid : Nat),
      (∀ c ∈ (deleteQuestion db qid).choices, c.question ≠ qid) ∧
      (∀ q ∈ (deleteQuestion db qid).questions, q.id ≠ qid) ∧
      (db.refIntact → (deleteQuestion db qid).refIntact)) := by
  refine ⟨by decide, fun db qid => ⟨?_, ?_, ?_⟩⟩
  · intro c hc
    simp only [deleteQuestion, List.mem_filter, bne_iff_ne, ne_eq] at hc
    exact hc.2
  · intro q hq
    simp only [deleteQuestion, List.mem_filter, bne_iff_ne, ne_eq] at hq
    exact hq.2
  · intro h c hc
    simp only [deleteQuestion, List.mem_filter, bne_iff_ne, ne_eq] at hc
    obtain ⟨q, hq, hqe⟩ := h c hc.1
    refine ⟨q, ?_, hqe⟩
    simp only [deleteQuestion, List.mem_filter, bne_iff_ne, ne_eq]
    exact ⟨hq, by rw [hqe]; exact hc.2⟩

theorem C4_witness : (deleteQuestion dbEx 1).refIntact :=
  (C4_cascade_delete.2 dbEx 1).2.2
    (by show ∀ c ∈ dbEx.choices, ∃ q ∈ dbEx.questions, q.id = c.question
        decide)

/-- C5: the Person-Group relation is exactly the set of Membership rows: a
person is a member of a group iff some row links them, and clearing a group
deletes the corresponding rows, leaving no member of that group. -/
theorem C5_membership_relation :
    (∀ (tbl : MembershipTable) (p g : Nat),
      isMember tbl p g = true ↔ ∃ m ∈ tbl, m.person = p ∧ m.group = g) ∧
    (∀ (tbl : MembershipTable) (g : Nat),
      (∀ m ∈ clearMembers tbl g, m.group ≠ g) ∧
      ∀ p, isMember (clearMembers tbl g) p g = false) := by
  refine ⟨fun tbl p g => ?_, fun tbl g => ⟨?_, ?_⟩⟩
  · simp [isMember]
  · intro m hm
    simp only [clearMembers, List.mem_filter, bne_iff_ne, ne_eq] at hm
    exact hm.2
  · intro p
    rw [Bool.eq_false_iff]
    intro h
    simp only [isMember, List.any_eq_true, Bool.and_eq_true, beq_iff_eq,
      clearMembers, List.mem_filter, bne_iff_ne, ne_eq] at h
    obtain ⟨m, ⟨_, hne⟩, _, hg⟩ := h
    exact hne hg

theorem C5_witness :
    isMember beatlesMemberships 1 1 = true ∧
    isMember (clearMembers beatlesMemberships 1) 1 1 = false :=
  ⟨(C5_membership_relation.1 beatlesMemberships 1 1).mpr
      ⟨⟨1, 1, ⟨1962, 8, 16⟩, "Needed a new drummer."⟩, List.Mem.head _, rfl, rfl⟩,
   (C5_membership_relation.2 beatlesMemberships 1).2 1⟩

/-- C6: the declared shirt-size values are exactly S, M and L, and the
display accessor maps S to Small, M to Medium and L to Large. -/
theorem C6_shirt_sizes :
    SHIRT_SIZES.map Prod.fst = ["S", "M", "L"] ∧
    ∀ p : Person,
      (p.shirt_size = "S" → p.get_shirt_size_display = "Small") ∧
      (p.shirt_size = "M" → p.get_shirt_size_display = "Medium") ∧
      (p.shirt_size = "L" → p.get_shirt_size_display = "Large") := by
  refine ⟨rfl, fun p => ⟨?_, ?_, ?_⟩⟩ <;> intro h <;>
    simp [Person.get_shirt_size_display, SHIRT_SIZES, h, List.find?]

theorem C6_witness : fred.get_shirt_size_display = "Large" :=
  (C6_shirt_sizes.2 fred).2.2 rfl

/-- C7: Ox declares default ordering by horn_length, and retrieval without
an explicit ordering yields the stored rows as a sequence sorted in
non-decreasing horn_length. -/
theorem C7_ox_default_ordering :
    oxMetaOrdering = ["horn_length"] ∧
    ∀ rows : List Ox,
      (oxObjectsAll rows).Pairwise (fun a b => a.horn_length ≤ b.horn_length) ∧
      (oxObjectsAll rows).Perm rows := by
  refine ⟨rfl, fun rows => ⟨?_, ?_⟩⟩
  · exact List.sorted_insertionSort oxLe rows
  · exact List.perm_insertionSort oxLe rows

/-- C8: Fruit's name is its primary key; saving an existing object under a
different name inserts a fresh row with the new name while the original row
stays present and unchanged, so both rows exist afterwards. -/
theorem C8_fruit_primary_key (tbl : FruitTable) (old nw : String)
    (hmem : old ∈ tbl) (hne : old ≠ nw) :
    old ∈ fruitSave tbl nw ∧ nw ∈ fruitSave tbl nw ∧
    (fruitSave tbl nw).count old = tbl.count old ∧
    (nw ∉ tbl → fruitSave tbl nw = tbl ++ [nw]) := by
  unfold fruitSave
  by_cases h : nw ∈ tbl
  · rw [if_pos h]
    exact ⟨hmem, h, rfl, fun hnot => absurd h hnot⟩
  · rw [if_neg h]
    refine ⟨List.mem_append_left _ hmem, List.mem_append_right _ (List.Mem.head _),
      ?_, fun _ => rfl⟩
    simp [List.count_append, List.count_cons, Ne.symm hne]

theorem C8_witness :
    "Apple" ∈ fruitSave ["Apple"] "Pear" ∧ "Pear" ∈ fruitSave ["Apple"] "Pear" :=
  ⟨(C8_fruit_primary_key ["Apple"] "Apple" "Pear" (List.Mem.head _) (by decide)).1,
   (C8_fruit_primary_key ["Apple"] "Apple" "Pear" (List.Mem.head _) (by decide)).2.1⟩

/-- C9: a question whose publish timestamp lies in the future counts as
recently published: the method places no upper bound on `pub_date`. -/
theorem C9_future_pub_date_recent (pub_date now : Int) (h : now < pub_date) :
    wasPublishedRecently pub_date now = true := by
  simp only [wasPublishedRecently, timedeltaOneDay, ge_iff_le, decide_eq_true_eq]
  omega

theorem C9_witness : wasPublishedRecently 10 0 = true :=
  C9_future_pub_date_recent 10 0 (by decide)

/-- C10: the schema permits a null birth date, and on such a person
`baby_boomer_status` reaches the failing comparison: the call errors and
never returns one of the three status strings. -/
theorem C10_null_birth_date_fails (p : Person) (h : p.birth_date = none) :
    p.baby_boomer_status = Except.error "TypeError" ∧
    ∀ s : String, p.baby_boomer_status ≠ Except.ok s := by
  simp [Person.baby_boomer_status, h]

theorem C10_witness :
    lennon.baby_boomer_status = Except.error "TypeError" :=
  (C10_null_birth_date_fails lennon rfl).1
